import Mathlib

/-!
Verification of the slot-based inventory engine of `feldspar`
(`src/plugins/inventory.rs`): the `ItemStack` / `Inventory` data model and the
`apply_inventory_requests` system that consumes `InventoryRequest` commands,
mutates `Inventory` components and emits `InventoryResult` / `InventoryChanged`
events.

Modelling choices:
* Rust `u16` counts are modelled as `Nat`.  Every subtraction the engine
  performs is guarded (`move_n ≤ count`, `take ≤ count`) or saturating
  (`space_left`), and every addition is capped by `max_stack`, so `Nat`
  with truncated subtraction reproduces the `u16` arithmetic exactly.
* The sparse `HashMap<usize, ItemStack>` slot storage is modelled as a total
  function `Nat → Option ItemStack` (`none` = key absent).
* The ECS world, as seen through `Query<&mut Inventory>`, is a partial map
  `Entity → Option Inventory`.  Bevy's `Query::get_many_mut([a, b])` fails on
  aliased entities (`AliasedMutability`), which the model reproduces.
* The per-command `changed_per_inv : HashMap<Entity, Vec<SlotChange>>` is
  modelled as an association list in first-touch order; one command touches at
  most two distinct inventories, and the claims proved about notifications are
  insensitive to the iteration order of the map.
-/

namespace Feldspar

/-- Rust `pub type ItemId = u32`. -/
abbrev ItemId := Nat

/-- Rust `struct ItemStack { id, count, max_stack }`. -/
structure ItemStack where
  id : ItemId
  count : Nat
  max_stack : Nat
deriving DecidableEq, Repr

/-- Rust `ItemStack::new`. -/
def ItemStack.new (id : ItemId) (count : Nat) (max_stack : Nat) : ItemStack :=
  ⟨id, count, max_stack⟩

/-- Rust `ItemStack::space_left` = `max_stack.saturating_sub(count)`. -/
def ItemStack.space_left (s : ItemStack) : Nat := s.max_stack - s.count

/-- Rust `ItemStack::is_full` = `count >= max_stack`. -/
def ItemStack.is_full (s : ItemStack) : Bool := decide (s.max_stack ≤ s.count)

/-- Rust `ItemStack::is_empty` = `count == 0`. -/
def ItemStack.is_empty (s : ItemStack) : Bool := decide (s.count = 0)

/-- Rust `struct Inventory { capacity, slots }` with sparse slot storage. -/
structure Inventory where
  capacity : Nat
  slots : Nat → Option ItemStack

/-- Rust `Inventory::get`: the stack at slot `i`, if any. -/
def Inventory.get (inv : Inventory) (i : Nat) : Option ItemStack := inv.slots i

/-- Rust `Inventory::set`: `insert` on `Some`, `remove` on `None`. -/
def Inventory.set (inv : Inventory) (i : Nat) (stack : Option ItemStack) : Inventory :=
  { inv with slots := fun j => if j = i then stack else inv.slots j }

/-- Rust `Inventory::in_bounds` = `i < capacity`. -/
def Inventory.in_bounds (inv : Inventory) (i : Nat) : Bool := decide (i < inv.capacity)

/-- Bevy `Entity` handles, modelled as naturals. -/
abbrev Entity := Nat

/-- The live inventories of the ECS world, as seen through
`Query<&mut Inventory>`: a partial map from entity to inventory. -/
abbrev World := Entity → Option Inventory

/-- Bevy `q_inv.get_mut(e)`: resolve one entity to its inventory. -/
def getInv (w : World) (e : Entity) : Option Inventory := w e

/-- Write an inventory back into the world at entity `e`. -/
def setInv (w : World) (e : Entity) (inv : Inventory) : World :=
  fun x => if x = e then some inv else w x

/-- Bevy `q_inv.get_many_mut([a, b])`: both inventories, provided the two
entities are distinct (requesting the same entity twice is an
`AliasedMutability` error) and both are live. -/
def getManyMut (w : World) (a b : Entity) : Option (Inventory × Inventory) :=
  if a = b then none
  else
    match w a, w b with
    | some x, some y => some (x, y)
    | _, _ => none

/-- Rust `enum InventoryAction`. -/
inductive InventoryAction where
  | set (inv : Entity) (slot : Nat) (stack : Option ItemStack)
  | move (from_inv : Entity) (from_slot : Nat) (to_inv : Entity) (to_slot : Nat)
      (amount : Nat) (allow_swap : Bool)

/-- Rust `struct InventoryRequest { id, action }`. -/
structure InventoryRequest where
  id : Nat
  action : InventoryAction

/-- Rust `struct InventoryResult { id, ok, details }`. -/
structure InventoryResult where
  id : Nat
  ok : Bool
  details : Option String
deriving DecidableEq, Repr

/-- Rust `struct SlotChange { slot, new_stack }`. -/
structure SlotChange where
  slot : Nat
  new_stack : Option ItemStack
deriving DecidableEq, Repr

/-- Rust `struct InventoryChanged { inv, changes }`. -/
structure InventoryChanged where
  inv : Entity
  changes : List SlotChange
deriving DecidableEq, Repr

/-- The per-command accumulator
`changed_per_inv : HashMap<Entity, Vec<SlotChange>>`, modelled as an
association list in first-touch order. -/
abbrev ChangeMap := List (Entity × List SlotChange)

/-- Rust `changed_per_inv.entry(e).or_default().push(c)`. -/
def entryPush (m : ChangeMap) (e : Entity) (c : SlotChange) : ChangeMap :=
  match m with
  | [] => [(e, [c])]
  | (k, cs) :: rest =>
    if k = e then (k, cs ++ [c]) :: rest else (k, cs) :: entryPush rest e c

/-- The `Set` arm of `apply_inventory_requests`: the inner closure's body,
threading the world and the change map; `Except String Unit` mirrors the
closure's `Result<(), String>`. -/
def applySet (w : World) (m : ChangeMap) (inv : Entity) (slot : Nat)
    (stack : Option ItemStack) : World × ChangeMap × Except String Unit :=
  match getInv w inv with
  | none => (w, m, .error "Inventory entity not found")
  | some inv_ref =>
    if !inv_ref.in_bounds slot then (w, m, .error "Slot out of bounds")
    else
      (setInv w inv (inv_ref.set slot stack),
       entryPush m inv ⟨slot, stack⟩,
       .ok ())

/-- The `Move` arm of `apply_inventory_requests`: resolve both inventories via
the multi-borrow accessor, validate, then branch on the destination slot
(empty / same item / different item), mirroring the Rust control flow
line by line. -/
def applyMove (w : World) (m : ChangeMap) (from_inv : Entity) (from_slot : Nat)
    (to_inv : Entity) (to_slot : Nat) (amount : Nat) (allow_swap : Bool) :
    World × ChangeMap × Except String Unit :=
  match getManyMut w from_inv to_inv with
  | none => (w, m, .error "Source or destination inventory not found")
  | some (src, dst) =>
    if !src.in_bounds from_slot || !dst.in_bounds to_slot then
      (w, m, .error "Slot out of bounds")
    else
      match src.get from_slot with
      | none => (w, m, .error "Source slot empty")
      | some src_stack =>
        let move_n := min amount src_stack.count
        if move_n = 0 then (w, m, .error "Move amount is zero")
        else
          match dst.get to_slot with
          | none =>
            -- destination empty: simple move
            let moved := ItemStack.new src_stack.id move_n src_stack.max_stack
            let dst1 := dst.set to_slot (some moved)
            let src1 :=
              if src_stack.count - move_n = 0 then src.set from_slot none
              else src.set from_slot (some { src_stack with count := src_stack.count - move_n })
            let w1 := setInv (setInv w to_inv dst1) from_inv src1
            let m1 := entryPush m from_inv ⟨from_slot, src1.get from_slot⟩
            let m2 := entryPush m1 to_inv ⟨to_slot, dst1.get to_slot⟩
            (w1, m2, .ok ())
          | some dst_stack =>
            if dst_stack.id = src_stack.id then
              -- merge stacks (respect max_stack)
              let can_take := dst_stack.space_left
              let take := min move_n can_take
              if take = 0 then (w, m, .error "Destination stack full")
              else
                let dst1 := dst.set to_slot
                  (some { dst_stack with count := dst_stack.count + take })
                let src1 :=
                  if src_stack.count - take = 0 then src.set from_slot none
                  else src.set from_slot (some { src_stack with count := src_stack.count - take })
                let w1 := setInv (setInv w to_inv dst1) from_inv src1
                let m1 := entryPush m from_inv ⟨from_slot, src1.get from_slot⟩
                let m2 := entryPush m1 to_inv ⟨to_slot, dst1.get to_slot⟩
                (w1, m2, .ok ())
            else if allow_swap = true ∧ move_n = src_stack.count then
              -- swap full stacks (only when moving the full source stack)
              let dst1 := dst.set to_slot (some src_stack)
              let src1 := src.set from_slot (some dst_stack)
              let w1 := setInv (setInv w to_inv dst1) from_inv src1
              let m1 := entryPush m from_inv ⟨from_slot, src1.get from_slot⟩
              let m2 := entryPush m1 to_inv ⟨to_slot, dst1.get to_slot⟩
              (w1, m2, .ok ())
            else
              (w, m, .error "Destination occupied by different item (swap not allowed)")

/-- End-of-command emission loop: one `InventoryChanged` per entry of
`changed_per_inv`, skipping empty batches. -/
def emitChanges (m : ChangeMap) : List InventoryChanged :=
  (m.filter (fun p => !p.2.isEmpty)).map (fun p => ⟨p.1, p.2⟩)

/-- Dispatch on the action variant, starting from the fresh (empty)
`changed_per_inv` map each command gets. -/
def runAction (w : World) (a : InventoryAction) : World × ChangeMap × Except String Unit :=
  match a with
  | .set inv slot stack => applySet w [] inv slot stack
  | .move a sa b sb n sw => applyMove w [] a sa b sb n sw

/-- One iteration of the `for req in ev_in.read()` loop of
`apply_inventory_requests`: run the action with a fresh change map, then emit
the per-inventory change batches and exactly one result. -/
def applyRequest (w : World) (req : InventoryRequest) :
    World × InventoryResult × List InventoryChanged :=
  match runAction w req.action with
  | (w1, m1, .ok _) => (w1, ⟨req.id, true, none⟩, emitChanges m1)
  | (w1, m1, .error e) => (w1, ⟨req.id, false, some e⟩, emitChanges m1)

/-- The whole apply pass: drain the queued requests in submission order,
threading the world; collect the results in order and concatenate the
emitted change batches. -/
def applyPass (w : World) (reqs : List InventoryRequest) :
    World × List InventoryResult × List InventoryChanged :=
  match reqs with
  | [] => (w, [], [])
  | r :: rest =>
    let out := applyRequest w r
    let outs := applyPass out.1 rest
    (outs.1, out.2.1 :: outs.2.1, out.2.2 ++ outs.2.2)

/-! Concrete sample data, used to instantiate the theorems below on closed
inputs. -/

/-- A 40/64 stack of item 1 ("wood"). -/
def stackW40 : ItemStack := ⟨1, 40, 64⟩

/-- A 30/64 stack of item 1. -/
def stackW30 : ItemStack := ⟨1, 30, 64⟩

/-- A 5/10 stack of item 2 ("stone"), a different item identity. -/
def stackS5 : ItemStack := ⟨2, 5, 10⟩

/-- Capacity-1 container holding `stackW40` at slot 0. -/
def invA : Inventory := ⟨1, fun j => if j = 0 then some stackW40 else none⟩

/-- Capacity-1 container holding `stackW30` at slot 0. -/
def invB : Inventory := ⟨1, fun j => if j = 0 then some stackW30 else none⟩

/-- Capacity-1 container holding `stackS5` at slot 0. -/
def invC : Inventory := ⟨1, fun j => if j = 0 then some stackS5 else none⟩

/-- An empty capacity-10 container. -/
def invEmpty10 : Inventory := ⟨10, fun _ => none⟩

/-- World with `invA` at entity 0 and `invB` at entity 1. -/
def wAB : World := fun e => if e = 0 then some invA else if e = 1 then some invB else none

/-- World with `invA` at entity 0 and `invC` at entity 1. -/
def wAC : World := fun e => if e = 0 then some invA else if e = 1 then some invC else none

/-- World with a single empty capacity-10 container at entity 0. -/
def wE : World := fun e => if e = 0 then some invEmpty10 else none

/-- World with no live inventory at all. -/
def wNone : World := fun _ => none

/-- Read one slot of one container of the world (for stating post-conditions). -/
def getStack (w : World) (e : Entity) (i : Nat) : Option ItemStack :=
  (w e).bind fun inv => inv.get i

/-- The spec's stack invariant: `0 < count ≤ max_stack` (a stored stack is
non-empty and within capacity). -/
def StackOk (s : ItemStack) : Prop := 0 < s.count ∧ s.count ≤ s.max_stack

/-- Every stack stored in the container satisfies the stack invariant. -/
def InvOk (inv : Inventory) : Prop := ∀ i s, inv.slots i = some s → StackOk s

/-- Every stack stored in any live container satisfies the stack invariant. -/
def WorldOk (w : World) : Prop := ∀ e inv, w e = some inv → InvOk inv

/-- A `Set` payload that itself respects the stack invariant. -/
def PayloadOk : Option ItemStack → Prop
  | none => True
  | some s => StackOk s

/-- Commands that can be expected to preserve the stack invariant: any `Move`,
and a `Set` whose payload is valid (the engine performs no payload
validation of its own). -/
def ActionOk : InventoryAction → Prop
  | .set _ _ stack => PayloadOk stack
  | .move _ _ _ _ _ _ => True

/-! Basic lemmas about the world and container primitives. -/

theorem getManyMut_ne {w : World} {a b : Entity} {p : Inventory × Inventory}
    (h : getManyMut w a b = some p) : a ≠ b := by
  intro hab
  simp [getManyMut, hab] at h

theorem getManyMut_eq_some {w : World} {a b : Entity} {x y : Inventory} :
    getManyMut w a b = some (x, y) ↔ a ≠ b ∧ w a = some x ∧ w b = some y := by
  constructor
  · intro h
    have hab : a ≠ b := getManyMut_ne h
    simp only [getManyMut, if_neg hab] at h
    rcases hwa : w a with _ | xa <;> rcases hwb : w b with _ | yb <;>
      simp [hwa, hwb] at h
    exact ⟨hab, by simp [hwa, h.1], by simp [hwb, h.2]⟩
  · rintro ⟨hab, hwa, hwb⟩
    simp [getManyMut, if_neg hab, hwa, hwb]

theorem setInv_apply_self (w : World) (e : Entity) (inv : Inventory) :
    setInv w e inv e = some inv := by
  simp [setInv]

theorem setInv_apply_other (w : World) (e x : Entity) (inv : Inventory)
    (h : x ≠ e) : setInv w e inv x = w x := by
  simp [setInv, h]

theorem setInv_setInv_self (w : World) (e : Entity) (u v : Inventory) :
    setInv (setInv w e u) e v = setInv w e v := by
  funext x
  by_cases hx : x = e <;> simp [setInv, hx]

theorem setInv_eq_self {w : World} {e : Entity} {inv : Inventory}
    (h : w e = some inv) : setInv w e inv = w := by
  funext x
  by_cases hx : x = e <;> simp [setInv, hx, h.symm]

theorem setInv_comm (w : World) {a b : Entity} (u v : Inventory) (h : a ≠ b) :
    setInv (setInv w a u) b v = setInv (setInv w b v) a u := by
  funext x
  by_cases hxa : x = a <;> by_cases hxb : x = b <;>
    simp_all [setInv]

theorem Inventory.capacity_set (inv : Inventory) (i : Nat) (v : Option ItemStack) :
    (inv.set i v).capacity = inv.capacity := rfl

theorem Inventory.get_set_self (inv : Inventory) (i : Nat) (v : Option ItemStack) :
    (inv.set i v).get i = v := by
  simp [Inventory.get, Inventory.set]

theorem Inventory.get_set_other (inv : Inventory) {i j : Nat} (v : Option ItemStack)
    (h : j ≠ i) : (inv.set i v).get j = inv.get j := by
  simp [Inventory.get, Inventory.set, h]

theorem Inventory.set_set_self (inv : Inventory) (i : Nat) (u v : Option ItemStack) :
    (inv.set i u).set i v = inv.set i v := by
  cases inv
  simp only [Inventory.set, Inventory.mk.injEq, true_and]
  funext j
  by_cases hj : j = i <;> simp [hj]

theorem Inventory.set_eq_self {inv : Inventory} {i : Nat} {v : Option ItemStack}
    (h : inv.get i = v) : inv.set i v = inv := by
  cases inv
  simp only [Inventory.set, Inventory.mk.injEq, true_and]
  funext j
  by_cases hj : j = i <;> simp_all [Inventory.get]

/-- Each arm of the engine either succeeds or returns the world and change map
exactly as it received them (the Rust closure's early `return Err` paths all
precede the first mutation). -/
theorem applySet_frame_or_ok (w : World) (m : ChangeMap) (inv : Entity)
    (slot : Nat) (stack : Option ItemStack) :
    ((applySet w m inv slot stack).1 = w ∧ (applySet w m inv slot stack).2.1 = m)
    ∨ (applySet w m inv slot stack).2.2 = .ok () := by
  unfold applySet
  repeat' split
  all_goals simp

theorem applyMove_frame_or_ok (w : World) (m : ChangeMap) (a : Entity) (sa : Nat)
    (b : Entity) (sb : Nat) (n : Nat) (sw : Bool) :
    ((applyMove w m a sa b sb n sw).1 = w ∧ (applyMove w m a sa b sb n sw).2.1 = m)
    ∨ (applyMove w m a sa b sb n sw).2.2 = .ok () := by
  unfold applyMove
  repeat'
    first
      | (exact Or.inl ⟨rfl, rfl⟩)
      | (exact Or.inr rfl)
      | split
      | simp

theorem runAction_frame_or_ok (w : World) (act : InventoryAction) :
    ((runAction w act).1 = w ∧ (runAction w act).2.1 = [])
    ∨ (runAction w act).2.2 = .ok () := by
  cases act with
  | set inv slot stack => exact applySet_frame_or_ok w [] inv slot stack
  | move a sa b sb n sw => exact applyMove_frame_or_ok w [] a sa b sb n sw

/-- A failing action leaves the world untouched and the change map empty. -/
theorem runAction_error_frame {w : World} {act : InventoryAction} {e : String}
    (h : (runAction w act).2.2 = .error e) :
    (runAction w act).1 = w ∧ (runAction w act).2.1 = [] := by
  rcases runAction_frame_or_ok w act with hf | hok
  · exact hf
  · rw [h] at hok
    cases hok

/-- A command whose action succeeds produces the ok result and the emitted
batches of its change map. -/
theorem applyRequest_of_run_ok {w w1 : World} {m1 : ChangeMap} (cid : Nat)
    {act : InventoryAction} (h : runAction w act = (w1, m1, .ok ())) :
    applyRequest w ⟨cid, act⟩ = (w1, ⟨cid, true, none⟩, emitChanges m1) := by
  unfold applyRequest
  dsimp only
  rw [h]

/-- A command whose action fails produces the error result. -/
theorem applyRequest_of_run_error {w w1 : World} {m1 : ChangeMap} (cid : Nat)
    {act : InventoryAction} {e : String} (h : runAction w act = (w1, m1, .error e)) :
    applyRequest w ⟨cid, act⟩ = (w1, ⟨cid, false, some e⟩, emitChanges m1) := by
  unfold applyRequest
  dsimp only
  rw [h]

theorem runAction_move (w : World) (a : Entity) (sa : Nat) (b : Entity)
    (sb n : Nat) (sw : Bool) :
    runAction w (.move a sa b sb n sw) = applyMove w [] a sa b sb n sw := rfl

/-- Evaluation of `applyMove` in the same-item merge branch: both containers
resolve, both slots are in bounds, the source slot holds `s1`, the
destination slot holds `s2` of the same item identity, and the clamped
amount is positive. -/
theorem applyMove_merge {w : World} {a b : Entity} {src dst : Inventory}
    {s1 s2 : ItemStack} (m : ChangeMap) {sa sb : Nat} (n : Nat) (sw : Bool)
    (hres : getManyMut w a b = some (src, dst))
    (hsa : sa < src.capacity) (hsb : sb < dst.capacity)
    (h1 : src.get sa = some s1) (h2 : dst.get sb = some s2)
    (hid : s2.id = s1.id) (hn : 0 < min n s1.count) :
    applyMove w m a sa b sb n sw =
      (if min (min n s1.count) s2.space_left = 0 then
        (w, m, .error "Destination stack full")
       else
        (setInv (setInv w b
            (dst.set sb (some { s2 with
              count := s2.count + min (min n s1.count) s2.space_left }))) a
          (if s1.count - min (min n s1.count) s2.space_left = 0 then src.set sa none
           else src.set sa (some { s1 with
             count := s1.count - min (min n s1.count) s2.space_left })),
         entryPush (entryPush m a
             ⟨sa, (if s1.count - min (min n s1.count) s2.space_left = 0 then src.set sa none
                   else src.set sa (some { s1 with
                     count := s1.count - min (min n s1.count) s2.space_left })).get sa⟩) b
             ⟨sb, ((dst.set sb (some { s2 with
               count := s2.count + min (min n s1.count) s2.space_left })).get sb)⟩,
         .ok ())) := by
  have hbounds : ¬ ((!src.in_bounds sa || !dst.in_bounds sb) = true) := by
    simp [Inventory.in_bounds, hsa, hsb]
  have hn' : ¬ (min n s1.count = 0) := Nat.pos_iff_ne_zero.mp hn
  unfold applyMove
  rw [hres]
  dsimp only
  rw [if_neg hbounds, h1]
  dsimp only
  rw [if_neg hn', h2]
  dsimp only
  rw [if_pos hid]

/-- Evaluation of `applyMove` in the different-item branch: swap wholesale
when `allow_swap` holds and the clamped amount covers the whole source
stack, otherwise reject. -/
theorem applyMove_diff_item {w : World} {a b : Entity} {src dst : Inventory}
    {s1 s2 : ItemStack} (m : ChangeMap) {sa sb : Nat} (n : Nat) (sw : Bool)
    (hres : getManyMut w a b = some (src, dst))
    (hsa : sa < src.capacity) (hsb : sb < dst.capacity)
    (h1 : src.get sa = some s1) (h2 : dst.get sb = some s2)
    (hid : ¬ s2.id = s1.id) (hn : 0 < min n s1.count) :
    applyMove w m a sa b sb n sw =
      (if sw = true ∧ min n s1.count = s1.count then
        (setInv (setInv w b (dst.set sb (some s1))) a (src.set sa (some s2)),
         entryPush (entryPush m a ⟨sa, (src.set sa (some s2)).get sa⟩) b
           ⟨sb, (dst.set sb (some s1)).get sb⟩,
         .ok ())
       else (w, m, .error "Destination occupied by different item (swap not allowed)")) := by
  have hbounds : ¬ ((!src.in_bounds sa || !dst.in_bounds sb) = true) := by
    simp [Inventory.in_bounds, hsa, hsb]
  have hn' : ¬ (min n s1.count = 0) := Nat.pos_iff_ne_zero.mp hn
  unfold applyMove
  rw [hres]
  dsimp only
  rw [if_neg hbounds, h1]
  dsimp only
  rw [if_neg hn', h2]
  dsimp only
  rw [if_neg hid]

/-- The result of one command always carries that command's correlation id. -/
theorem applyRequest_id (w : World) (req : InventoryRequest) :
    (applyRequest w req).2.1.id = req.id := by
  rcases hr : runAction w req.action with ⟨w1, m1, r⟩
  unfold applyRequest
  rw [hr]
  cases r <;> rfl

/-- A successful `Set` on a live container and in-bounds slot: the slot is
overwritten and one change is recorded. -/
theorem applySet_success {w : World} {e : Entity} {inv : Inventory} (m : ChangeMap)
    (slot : Nat) (stack : Option ItemStack)
    (hw : w e = some inv) (hs : slot < inv.capacity) :
    applySet w m e slot stack =
      (setInv w e (inv.set slot stack), entryPush m e ⟨slot, stack⟩, .ok ()) := by
  unfold applySet
  rw [show getInv w e = some inv from hw]
  simp [Inventory.in_bounds, hs]

/-- A successful `Set` command, end to end: new world, ok result, one
notification batch with the single slot change. -/
theorem applyRequest_set_success {w : World} {e : Entity} {inv : Inventory}
    (cid slot : Nat) (stack : Option ItemStack)
    (hw : w e = some inv) (hs : slot < inv.capacity) :
    applyRequest w ⟨cid, .set e slot stack⟩ =
      (setInv w e (inv.set slot stack), ⟨cid, true, none⟩, [⟨e, [⟨slot, stack⟩]⟩]) := by
  unfold applyRequest runAction
  dsimp only
  rw [applySet_success [] slot stack hw hs]
  rfl

/-- C1: a `Move` whose source and destination refer to the same container is
special-cased by the multi-borrow resolution (`Query::get_many_mut` rejects
taking two mutable views of one container): the command is rejected with a
single `ok = false` result, mutates nothing (so it cannot double-mutate or
deadlock) and emits no notification. In particular `Move{A,0,A,0,amount,..}`
leaves the state uncorrupted — the "reject without an aliasing failure"
handling the claim allows. -/
theorem move_same_container_rejected (w : World) (cid : Nat) (a : Entity)
    (sa sb n : Nat) (sw : Bool) :
    applyRequest w ⟨cid, .move a sa a sb n sw⟩ =
      (w, ⟨cid, false, some "Source or destination inventory not found"⟩, []) := by
  simp [applyRequest, runAction, applyMove, getManyMut, emitChanges]

/-- C3: a command whose result is not ok leaves every container exactly as it
was before the command: every failure path of the engine returns before the
first mutation. -/
theorem failed_request_world_unchanged (w : World) (req : InventoryRequest)
    (h : (applyRequest w req).2.1.ok = false) :
    (applyRequest w req).1 = w := by
  rcases hr : runAction w req.action with ⟨w1, m1, r⟩
  cases r with
  | ok u =>
    exfalso
    unfold applyRequest at h
    rw [hr] at h
    simp at h
  | error e =>
    have herr : (runAction w req.action).2.2 = .error e := by rw [hr]
    have hframe := runAction_error_frame herr
    rw [hr] at hframe
    unfold applyRequest
    rw [hr]
    exact hframe.1

/-- Witness for C3: a concrete failing command (a move in a world with no
live inventory) leaves the world unchanged. -/
theorem failed_request_world_unchanged_witness :
    (applyRequest wNone ⟨7, .move 0 0 1 0 5 false⟩).2.1.ok = false ∧
    (applyRequest wNone ⟨7, .move 0 0 1 0 5 false⟩).1 = wNone :=
  ⟨by decide, failed_request_world_unchanged wNone ⟨7, .move 0 0 1 0 5 false⟩ (by decide)⟩

/-- C10: a command whose result is not ok emits zero `InventoryChanged`
notifications: the change map is appended to only after all of that command's
validations have passed, so failure implies an empty change set. -/
theorem failed_request_no_notifications (w : World) (req : InventoryRequest)
    (h : (applyRequest w req).2.1.ok = false) :
    (applyRequest w req).2.2 = [] := by
  rcases hr : runAction w req.action with ⟨w1, m1, r⟩
  cases r with
  | ok u =>
    exfalso
    unfold applyRequest at h
    rw [hr] at h
    simp at h
  | error e =>
    have herr : (runAction w req.action).2.2 = .error e := by rw [hr]
    have hframe := runAction_error_frame herr
    rw [hr] at hframe
    unfold applyRequest
    rw [hr]
    have : m1 = [] := hframe.2
    simp [this, emitChanges]

/-- Witness for C10: a concrete failing command (set into an out-of-bounds
slot) emits no notification. -/
theorem failed_request_no_notifications_witness :
    (applyRequest wE ⟨9, .set 0 99 (some stackW40)⟩).2.1.ok = false ∧
    (applyRequest wE ⟨9, .set 0 99 (some stackW40)⟩).2.2 = [] :=
  ⟨by decide, failed_request_no_notifications wE ⟨9, .set 0 99 (some stackW40)⟩ (by decide)⟩

/-- C5: the apply pass produces exactly one result per submitted command, in
submission order, each carrying its command's correlation id; the pass is a
total fold over the queue, so a failing or malformed command never aborts it
and all subsequent commands are still processed. -/
theorem one_result_per_request_in_order (w : World) (reqs : List InventoryRequest) :
    ((applyPass w reqs).2.1).map (fun r => r.id) = reqs.map (fun rq => rq.id) := by
  induction reqs generalizing w with
  | nil => rfl
  | cons r rest ih => simp [applyPass, applyRequest_id, ih]

/-- C9: `Set` is idempotent on a live container and in-bounds slot: both
applications succeed and the second leaves the world exactly where the first
put it. -/
theorem set_idempotent (w : World) (cid cid2 : Nat) (e : Entity) (slot : Nat)
    (stack : Option ItemStack) (inv : Inventory)
    (hw : w e = some inv) (hs : slot < inv.capacity) :
    (applyRequest w ⟨cid, .set e slot stack⟩).2.1.ok = true ∧
    (applyRequest (applyRequest w ⟨cid, .set e slot stack⟩).1
      ⟨cid2, .set e slot stack⟩).2.1.ok = true ∧
    (applyRequest (applyRequest w ⟨cid, .set e slot stack⟩).1
      ⟨cid2, .set e slot stack⟩).1 = (applyRequest w ⟨cid, .set e slot stack⟩).1 := by
  have h1 := applyRequest_set_success cid slot stack hw hs
  have hw2 : (applyRequest w ⟨cid, .set e slot stack⟩).1 e = some (inv.set slot stack) := by
    rw [h1]
    exact setInv_apply_self w e (inv.set slot stack)
  have hs2 : slot < (inv.set slot stack).capacity := hs
  have h2 := applyRequest_set_success (w := (applyRequest w ⟨cid, .set e slot stack⟩).1)
    cid2 slot stack hw2 hs2
  refine ⟨by rw [h1], by rw [h2], ?_⟩
  rw [h2, h1]
  rw [Inventory.set_set_self, setInv_setInv_self]

theorem getStack_setInv_setInv_fst {w : World} {a b : Entity} (h : a ≠ b)
    (u v : Inventory) (i : Nat) :
    getStack (setInv (setInv w b u) a v) b i = u.get i := by
  unfold getStack
  rw [setInv_apply_other _ _ _ _ (Ne.symm h), setInv_apply_self]
  rfl

theorem getStack_setInv_snd (w : World) (a : Entity) (v : Inventory) (i : Nat) :
    getStack (setInv w a v) a i = v.get i := by
  unfold getStack
  rw [setInv_apply_self]
  rfl

/-- C4: a `Move` onto a destination slot holding the same item identity
computes `take = min(move_n, dest.space_left())`; it fails with the
destination-full error exactly when `take = 0` and leaves the world
untouched, and otherwise succeeds, adding `take` to the destination stack
and removing `take` from the source (clearing the source slot when it
reaches zero), conserving the total count with any capped shortfall left on
the source. -/
theorem move_merge_same_item (w : World) (cid : Nat) (a b : Entity)
    (sa sb n : Nat) (sw : Bool) (src dst : Inventory) (s1 s2 : ItemStack)
    (hres : getManyMut w a b = some (src, dst))
    (hsa : sa < src.capacity) (hsb : sb < dst.capacity)
    (h1 : src.get sa = some s1) (h2 : dst.get sb = some s2)
    (hid : s2.id = s1.id) (hn : 0 < min n s1.count) :
    (min (min n s1.count) s2.space_left = 0 →
      applyRequest w ⟨cid, .move a sa b sb n sw⟩ =
        (w, ⟨cid, false, some "Destination stack full"⟩, [])) ∧
    (0 < min (min n s1.count) s2.space_left →
      (applyRequest w ⟨cid, .move a sa b sb n sw⟩).2.1.ok = true ∧
      getStack (applyRequest w ⟨cid, .move a sa b sb n sw⟩).1 b sb =
        some { s2 with count := s2.count + min (min n s1.count) s2.space_left } ∧
      getStack (applyRequest w ⟨cid, .move a sa b sb n sw⟩).1 a sa =
        (if s1.count - min (min n s1.count) s2.space_left = 0 then none
         else some { s1 with count := s1.count - min (min n s1.count) s2.space_left }) ∧
      (s1.count - min (min n s1.count) s2.space_left) +
        (s2.count + min (min n s1.count) s2.space_left) = s1.count + s2.count) := by
  have hab : a ≠ b := getManyMut_ne hres
  have hmm := applyMove_merge [] n sw hres hsa hsb h1 h2 hid hn
  constructor
  · intro hz
    have hrun : runAction w (InventoryAction.move a sa b sb n sw) =
        (w, [], .error "Destination stack full") := by
      rw [runAction_move, hmm, if_pos hz]
    rw [applyRequest_of_run_error cid hrun]
    rfl
  · intro hp
    have hz : ¬ (min (min n s1.count) s2.space_left = 0) := Nat.pos_iff_ne_zero.mp hp
    have hrun : runAction w (InventoryAction.move a sa b sb n sw) =
        (setInv (setInv w b
            (dst.set sb (some { s2 with
              count := s2.count + min (min n s1.count) s2.space_left }))) a
          (if s1.count - min (min n s1.count) s2.space_left = 0 then src.set sa none
           else src.set sa (some { s1 with
             count := s1.count - min (min n s1.count) s2.space_left })),
         entryPush (entryPush [] a
             ⟨sa, (if s1.count - min (min n s1.count) s2.space_left = 0 then src.set sa none
                   else src.set sa (some { s1 with
                     count := s1.count - min (min n s1.count) s2.space_left })).get sa⟩) b
             ⟨sb, ((dst.set sb (some { s2 with
               count := s2.count + min (min n s1.count) s2.space_left })).get sb)⟩,
         .ok ()) := by
      rw [runAction_move, hmm, if_neg hz]
    have happ := applyRequest_of_run_ok cid hrun
    have htle : min (min n s1.count) s2.space_left ≤ s1.count :=
      le_trans (Nat.min_le_left _ _) (Nat.min_le_right _ _)
    refine ⟨by rw [happ], ?_, ?_, by omega⟩
    · rw [happ]
      dsimp only
      rw [getStack_setInv_setInv_fst hab, Inventory.get_set_self]
    · rw [happ]
      dsimp only
      rw [getStack_setInv_snd]
      by_cases hc : s1.count - min (min n s1.count) s2.space_left = 0
      · rw [if_pos hc, if_pos hc, Inventory.get_set_self]
      · rw [if_neg hc, if_neg hc, Inventory.get_set_self]

/-- Witness for C4, on the specification's own scenario: wood 40/64 moved
onto wood 30/64 in capacity-1 containers; `take = min(40, 34) = 34`, the
destination ends at 64, the source at 6, and the total 70 is conserved. -/
theorem move_merge_same_item_witness :
    getManyMut wAB 0 1 = some (invA, invB) ∧ (0 : Nat) < invA.capacity ∧
    (0 : Nat) < invB.capacity ∧ invA.get 0 = some stackW40 ∧
    invB.get 0 = some stackW30 ∧ stackW30.id = stackW40.id ∧
    0 < min 40 stackW40.count ∧
    ((min (min 40 stackW40.count) stackW30.space_left = 0 →
      applyRequest wAB ⟨5, .move 0 0 1 0 40 false⟩ =
        (wAB, ⟨5, false, some "Destination stack full"⟩, [])) ∧
     (0 < min (min 40 stackW40.count) stackW30.space_left →
      (applyRequest wAB ⟨5, .move 0 0 1 0 40 false⟩).2.1.ok = true ∧
      getStack (applyRequest wAB ⟨5, .move 0 0 1 0 40 false⟩).1 1 0 =
        some { stackW30 with count := stackW30.count + min (min 40 stackW40.count) stackW30.space_left } ∧
      getStack (applyRequest wAB ⟨5, .move 0 0 1 0 40 false⟩).1 0 0 =
        (if stackW40.count - min (min 40 stackW40.count) stackW30.space_left = 0 then none
         else some { stackW40 with count := stackW40.count - min (min 40 stackW40.count) stackW30.space_left }) ∧
      (stackW40.count - min (min 40 stackW40.count) stackW30.space_left) +
        (stackW30.count + min (min 40 stackW40.count) stackW30.space_left) =
          stackW40.count + stackW30.count)) :=
  ⟨rfl, by decide, by decide, rfl, rfl, rfl, by decide,
   move_merge_same_item wAB 5 0 1 0 0 40 false invA invB stackW40 stackW30
     rfl (by decide) (by decide) rfl rfl rfl (by decide)⟩

/-- C7: a `Move` onto a destination slot holding a different item identity
exchanges the two stacks wholesale when `allow_swap` is set and the clamped
amount covers the entire source stack, and otherwise — swap not allowed, or
a partial amount even with `allow_swap` — fails with the
incompatible-destination error, leaving both containers unchanged. -/
theorem move_diff_item_swap_or_reject (w : World) (cid : Nat) (a b : Entity)
    (sa sb n : Nat) (sw : Bool) (src dst : Inventory) (s1 s2 : ItemStack)
    (hres : getManyMut w a b = some (src, dst))
    (hsa : sa < src.capacity) (hsb : sb < dst.capacity)
    (h1 : src.get sa = some s1) (h2 : dst.get sb = some s2)
    (hid : ¬ s2.id = s1.id) (hn : 0 < min n s1.count) :
    (sw = true ∧ min n s1.count = s1.count →
      (applyRequest w ⟨cid, .move a sa b sb n sw⟩).2.1.ok = true ∧
      getStack (applyRequest w ⟨cid, .move a sa b sb n sw⟩).1 b sb = some s1 ∧
      getStack (applyRequest w ⟨cid, .move a sa b sb n sw⟩).1 a sa = some s2) ∧
    (¬ (sw = true ∧ min n s1.count = s1.count) →
      applyRequest w ⟨cid, .move a sa b sb n sw⟩ =
        (w, ⟨cid, false,
          some "Destination occupied by different item (swap not allowed)"⟩, [])) := by
  have hab : a ≠ b := getManyMut_ne hres
  have hd := applyMove_diff_item [] n sw hres hsa hsb h1 h2 hid hn
  constructor
  · intro hcond
    have hrun : runAction w (InventoryAction.move a sa b sb n sw) =
        (setInv (setInv w b (dst.set sb (some s1))) a (src.set sa (some s2)),
         entryPush (entryPush [] a ⟨sa, (src.set sa (some s2)).get sa⟩) b
           ⟨sb, (dst.set sb (some s1)).get sb⟩, .ok ()) := by
      rw [runAction_move, hd, if_pos hcond]
    have happ := applyRequest_of_run_ok cid hrun
    refine ⟨by rw [happ], ?_, ?_⟩
    · rw [happ]
      dsimp only
      rw [getStack_setInv_setInv_fst hab, Inventory.get_set_self]
    · rw [happ]
      dsimp only
      rw [getStack_setInv_snd, Inventory.get_set_self]
  · intro hcond
    have hrun : runAction w (InventoryAction.move a sa b sb n sw) =
        (w, [], .error "Destination occupied by different item (swap not allowed)") := by
      rw [runAction_move, hd, if_neg hcond]
    rw [applyRequest_of_run_error cid hrun]
    rfl

/-- Witness for C7: moving a partial amount (5 of 40) of wood onto a stone
stack with `allow_swap = true` is rejected and the world is unchanged. -/
theorem move_diff_item_swap_or_reject_witness :
    getManyMut wAC 0 1 = some (invA, invC) ∧ (0 : Nat) < invA.capacity ∧
    (0 : Nat) < invC.capacity ∧ invA.get 0 = some stackW40 ∧
    invC.get 0 = some stackS5 ∧ ¬ stackS5.id = stackW40.id ∧
    0 < min 5 stackW40.count ∧
    ((true = true ∧ min 5 stackW40.count = stackW40.count →
      (applyRequest wAC ⟨6, .move 0 0 1 0 5 true⟩).2.1.ok = true ∧
      getStack (applyRequest wAC ⟨6, .move 0 0 1 0 5 true⟩).1 1 0 = some stackW40 ∧
      getStack (applyRequest wAC ⟨6, .move 0 0 1 0 5 true⟩).1 0 0 = some stackS5) ∧
     (¬ (true = true ∧ min 5 stackW40.count = stackW40.count) →
      applyRequest wAC ⟨6, .move 0 0 1 0 5 true⟩ =
        (wAC, ⟨6, false,
          some "Destination occupied by different item (swap not allowed)"⟩, []))) :=
  ⟨rfl, by decide, by decide, rfl, rfl, by decide, by decide,
   move_diff_item_swap_or_reject wAC 6 0 1 0 0 5 true invA invC stackW40 stackS5
     rfl (by decide) (by decide) rfl rfl (by decide) (by decide)⟩

/-- C8: a full-stack swap is its own inverse: for two distinct-item stacks,
swapping A into B with `allow_swap = true` and the full source amount, then
swapping back with the full (now moved) source amount, restores the world
exactly; both commands succeed. -/
theorem full_stack_swap_involutive (w : World) (cid cid2 : Nat) (a b : Entity)
    (sa sb : Nat) (ia ib : Inventory) (s1 s2 : ItemStack)
    (hab : a ≠ b) (hwa : w a = some ia) (hwb : w b = some ib)
    (hsa : sa < ia.capacity) (hsb : sb < ib.capacity)
    (h1 : ia.get sa = some s1) (h2 : ib.get sb = some s2)
    (hid : ¬ s2.id = s1.id) (hc1 : 0 < s1.count) :
    (applyRequest w ⟨cid, .move a sa b sb s1.count true⟩).2.1.ok = true ∧
    (applyRequest (applyRequest w ⟨cid, .move a sa b sb s1.count true⟩).1
       ⟨cid2, .move b sb a sa s1.count true⟩).2.1.ok = true ∧
    (applyRequest (applyRequest w ⟨cid, .move a sa b sb s1.count true⟩).1
       ⟨cid2, .move b sb a sa s1.count true⟩).1 = w := by
  have hres1 : getManyMut w a b = some (ia, ib) := getManyMut_eq_some.mpr ⟨hab, hwa, hwb⟩
  have hn1 : 0 < min s1.count s1.count := by simpa using hc1
  have hd1 := applyMove_diff_item [] s1.count true hres1 hsa hsb h1 h2 hid hn1
  have hcond : (true = true ∧ min s1.count s1.count = s1.count) := ⟨rfl, Nat.min_self _⟩
  have hrun1 : runAction w (InventoryAction.move a sa b sb s1.count true) =
      (setInv (setInv w b (ib.set sb (some s1))) a (ia.set sa (some s2)),
       entryPush (entryPush [] a ⟨sa, (ia.set sa (some s2)).get sa⟩) b
         ⟨sb, (ib.set sb (some s1)).get sb⟩, .ok ()) := by
    rw [runAction_move, hd1, if_pos hcond]
  have happ1 := applyRequest_of_run_ok cid hrun1
  have hw1a : (setInv (setInv w b (ib.set sb (some s1))) a (ia.set sa (some s2))) a =
      some (ia.set sa (some s2)) := setInv_apply_self _ _ _
  have hw1b : (setInv (setInv w b (ib.set sb (some s1))) a (ia.set sa (some s2))) b =
      some (ib.set sb (some s1)) := by
    rw [setInv_apply_other _ _ _ _ (Ne.symm hab), setInv_apply_self]
  have hres2 : getManyMut (setInv (setInv w b (ib.set sb (some s1))) a
      (ia.set sa (some s2))) b a = some (ib.set sb (some s1), ia.set sa (some s2)) :=
    getManyMut_eq_some.mpr ⟨Ne.symm hab, hw1b, hw1a⟩
  have h1' : (ib.set sb (some s1)).get sb = some s1 := Inventory.get_set_self _ _ _
  have h2' : (ia.set sa (some s2)).get sa = some s2 := Inventory.get_set_self _ _ _
  have hd2 := applyMove_diff_item [] s1.count true hres2
    (show sb < (ib.set sb (some s1)).capacity from hsb)
    (show sa < (ia.set sa (some s2)).capacity from hsa) h1' h2' hid hn1
  have hrun2 : runAction (setInv (setInv w b (ib.set sb (some s1))) a (ia.set sa (some s2)))
      (InventoryAction.move b sb a sa s1.count true) =
      (setInv (setInv (setInv (setInv w b (ib.set sb (some s1))) a (ia.set sa (some s2))) a
          ((ia.set sa (some s2)).set sa (some s1))) b ((ib.set sb (some s1)).set sb (some s2)),
       entryPush (entryPush [] b ⟨sb, ((ib.set sb (some s1)).set sb (some s2)).get sb⟩) a
         ⟨sa, (((ia.set sa (some s2)).set sa (some s1))).get sa⟩, .ok ()) := by
    rw [runAction_move, hd2, if_pos hcond]
  have happ2 := applyRequest_of_run_ok cid2 hrun2
  refine ⟨by rw [happ1], ?_, ?_⟩
  · rw [happ1]
    dsimp only
    rw [happ2]
  · rw [happ1]
    dsimp only
    rw [happ2]
    dsimp only
    rw [setInv_setInv_self, Inventory.set_set_self, Inventory.set_set_self,
      Inventory.set_eq_self h1, Inventory.set_eq_self h2,
      setInv_comm w (ib.set sb (some s1)) ia (Ne.symm hab), setInv_setInv_self,
      setInv_eq_self hwa, setInv_eq_self hwb]

/-- Witness for C8: swapping wood 40/64 with stone 5/10 and back restores the
original world. -/
theorem full_stack_swap_involutive_witness :
    (0 : Entity) ≠ (1 : Entity) ∧ wAC 0 = some invA ∧ wAC 1 = some invC ∧
    (0 : Nat) < invA.capacity ∧ (0 : Nat) < invC.capacity ∧
    invA.get 0 = some stackW40 ∧ invC.get 0 = some stackS5 ∧
    ¬ stackS5.id = stackW40.id ∧ 0 < stackW40.count ∧
    ((applyRequest wAC ⟨21, .move 0 0 1 0 stackW40.count true⟩).2.1.ok = true ∧
     (applyRequest (applyRequest wAC ⟨21, .move 0 0 1 0 stackW40.count true⟩).1
        ⟨22, .move 1 0 0 0 stackW40.count true⟩).2.1.ok = true ∧
     (applyRequest (applyRequest wAC ⟨21, .move 0 0 1 0 stackW40.count true⟩).1
        ⟨22, .move 1 0 0 0 stackW40.count true⟩).1 = wAC) :=
  ⟨by decide, rfl, rfl, by decide, by decide, rfl, rfl, by decide, by decide,
   full_stack_swap_involutive wAC 21 22 0 1 0 0 invA invC stackW40 stackS5
     (by decide) rfl rfl (by decide) (by decide) rfl rfl (by decide) (by decide)⟩

/-- Witness for C9 at a concrete container and slot. -/
theorem set_idempotent_witness :
    wE 0 = some invEmpty10 ∧ (3 : Nat) < invEmpty10.capacity ∧
    ((applyRequest wE ⟨1, .set 0 3 (some stackW40)⟩).2.1.ok = true ∧
     (applyRequest (applyRequest wE ⟨1, .set 0 3 (some stackW40)⟩).1
       ⟨2, .set 0 3 (some stackW40)⟩).2.1.ok = true ∧
     (applyRequest (applyRequest wE ⟨1, .set 0 3 (some stackW40)⟩).1
       ⟨2, .set 0 3 (some stackW40)⟩).1 = (applyRequest wE ⟨1, .set 0 3 (some stackW40)⟩).1) :=
  ⟨rfl, by decide, set_idempotent wE 1 2 0 3 (some stackW40) invEmpty10 rfl (by decide)⟩

/-! Stack-invariant preservation. -/

theorem InvOk_set {inv : Inventory} {v : Option ItemStack} (h : InvOk inv)
    (hv : PayloadOk v) (i : Nat) : InvOk (inv.set i v) := by
  intro j s hj
  simp only [Inventory.set] at hj
  by_cases hji : j = i
  · rw [if_pos hji] at hj
    rw [hj] at hv
    exact hv
  · rw [if_neg hji] at hj
    exact h j s hj

theorem WorldOk_setInv {w : World} {inv : Inventory} (hw : WorldOk w)
    (hinv : InvOk inv) (e : Entity) : WorldOk (setInv w e inv) := by
  intro x ix hx
  by_cases hxe : x = e
  · rw [hxe, setInv_apply_self] at hx
    injection hx with h
    rw [← h]
    exact hinv
  · rw [setInv_apply_other _ _ _ _ hxe] at hx
    exact hw x ix hx

/-- Any action run from a world satisfying the stack invariant, with a valid
`Set` payload when the action is a `Set`, keeps the invariant. -/
theorem runAction_preserves (w : World) (act : InventoryAction)
    (hw : WorldOk w) (hact : ActionOk act) : WorldOk (runAction w act).1 := by
  cases act with
  | set e slot stack =>
    unfold runAction applySet
    dsimp only
    cases hg : getInv w e with
    | none => exact hw
    | some inv =>
      dsimp only
      split
      · exact hw
      · exact WorldOk_setInv hw (InvOk_set (hw e inv hg) hact slot) e
  | move a sa b sb n sw =>
    unfold runAction applyMove
    dsimp only
    cases hg : getManyMut w a b with
    | none => exact hw
    | some p =>
      obtain ⟨src, dst⟩ := p
      have hres := getManyMut_eq_some.mp hg
      have hsrcOk : InvOk src := hw a src hres.2.1
      have hdstOk : InvOk dst := hw b dst hres.2.2
      dsimp only
      split
      · exact hw
      · cases h1 : src.get sa with
        | none => exact hw
        | some s1 =>
          have hs1 : StackOk s1 := hsrcOk sa s1 h1
          dsimp only
          split
          · exact hw
          · rename_i hn0
            cases h2 : dst.get sb with
            | none =>
              dsimp only
              refine WorldOk_setInv (WorldOk_setInv hw ?_ b) ?_ a
              · refine InvOk_set hdstOk ?_ sb
                refine ⟨?_, ?_⟩
                · show 0 < min n s1.count
                  exact Nat.pos_of_ne_zero hn0
                · show min n s1.count ≤ s1.max_stack
                  exact le_trans (Nat.min_le_right _ _) hs1.2
              · split
                · refine InvOk_set hsrcOk ?_ sa
                  trivial
                · rename_i hnz
                  refine InvOk_set hsrcOk ?_ sa
                  refine ⟨?_, ?_⟩
                  · show 0 < s1.count - min n s1.count
                    exact Nat.pos_of_ne_zero hnz
                  · show s1.count - min n s1.count ≤ s1.max_stack
                    exact le_trans (Nat.sub_le _ _) hs1.2
            | some s2 =>
              have hs2 : StackOk s2 := hdstOk sb s2 h2
              dsimp only
              split
              · -- same item identity: merge
                split
                · exact hw
                · refine WorldOk_setInv (WorldOk_setInv hw ?_ b) ?_ a
                  · refine InvOk_set hdstOk ?_ sb
                    refine ⟨?_, ?_⟩
                    · show 0 < s2.count + min (min n s1.count) s2.space_left
                      have := hs2.1
                      omega
                    · show s2.count + min (min n s1.count) s2.space_left ≤ s2.max_stack
                      have hmin : min (min n s1.count) s2.space_left ≤ s2.space_left :=
                        Nat.min_le_right _ _
                      have hsl : s2.space_left = s2.max_stack - s2.count := rfl
                      have := hs2.2
                      omega
                  · split
                    · refine InvOk_set hsrcOk ?_ sa
                      trivial
                    · rename_i hnz
                      refine InvOk_set hsrcOk ?_ sa
                      refine ⟨?_, ?_⟩
                      · show 0 < s1.count - min (min n s1.count) s2.space_left
                        exact Nat.pos_of_ne_zero hnz
                      · show s1.count - min (min n s1.count) s2.space_left ≤ s1.max_stack
                        exact le_trans (Nat.sub_le _ _) hs1.2
              · -- different item identity
                split
                · refine WorldOk_setInv (WorldOk_setInv hw ?_ b) ?_ a
                  · refine InvOk_set hdstOk ?_ sb
                    exact hs1
                  · refine InvOk_set hsrcOk ?_ sa
                    exact hs2
                · exact hw

theorem InvOk_invA : InvOk invA := by
  intro i s hs
  unfold invA at hs
  dsimp only at hs
  split at hs
  · injection hs with h
    rw [← h]
    exact ⟨by decide, by decide⟩
  · cases hs

theorem InvOk_invB : InvOk invB := by
  intro i s hs
  unfold invB at hs
  dsimp only at hs
  split at hs
  · injection hs with h
    rw [← h]
    exact ⟨by decide, by decide⟩
  · cases hs

theorem WorldOk_wAB : WorldOk wAB := by
  intro e inv h
  unfold wAB at h
  split at h
  · injection h with h'
    rw [← h']
    exact InvOk_invA
  · split at h
    · injection h with h'
      rw [← h']
      exact InvOk_invB
    · cases h

/-- C2 counterexample: the engine validates only the container handle and the
slot index on a `Set` and stores the payload unconditionally, so a
successful `Set` can store a zero-count stack — contradicting the claim
that after every successful operation a `count = 0` stack is never stored. -/
theorem set_stores_zero_count_stack :
    (applyRequest wE ⟨3, .set 0 0 (some ⟨1, 0, 64⟩)⟩).2.1.ok = true ∧
    getStack (applyRequest wE ⟨3, .set 0 0 (some ⟨1, 0, 64⟩)⟩).1 0 0 = some ⟨1, 0, 64⟩ :=
  ⟨rfl, rfl⟩

/-- C2 (amended): after any command — in particular after every successful
`Move`, and after a `Set` whose payload is itself valid (`none`, or
`0 < count ≤ max_stack`) — every stack stored in any live container
satisfies `0 < count ≤ max_stack`; in particular no zero-count stack is
stored. The proviso on `Set` payloads is forced by the counterexample: the
engine performs no payload validation of its own. -/
theorem engine_preserves_stack_invariant (w : World) (req : InventoryRequest)
    (hw : WorldOk w) (hact : ActionOk req.action) :
    WorldOk (applyRequest w req).1 := by
  have h := runAction_preserves w req.action hw hact
  rcases hr : runAction w req.action with ⟨w1, m1, r⟩
  rw [hr] at h
  unfold applyRequest
  rw [hr]
  cases r <;> exact h

/-- Witness for C2 (amended) at a concrete invariant-satisfying world and a
`Move` command. -/
theorem engine_preserves_stack_invariant_witness :
    WorldOk wAB ∧ ActionOk (InventoryAction.move 0 0 1 0 40 false) ∧
    WorldOk (applyRequest wAB ⟨11, .move 0 0 1 0 40 false⟩).1 :=
  ⟨WorldOk_wAB, trivial,
   engine_preserves_stack_invariant wAB ⟨11, .move 0 0 1 0 40 false⟩ WorldOk_wAB trivial⟩

/-! Notification batching. -/

theorem entryPush_pair {a b : Entity} (h : a ≠ b) (c1 c2 : SlotChange) :
    entryPush (entryPush [] a c1) b c2 = [(a, [c1]), (b, [c2])] := by
  simp [entryPush, h]

/-- The change map accumulated by one command has pairwise-distinct
container keys: a command touches each container through at most one
`entry` of the per-command map. -/
theorem runAction_keys_distinct (w : World) (act : InventoryAction) :
    ((runAction w act).2.1).Pairwise (fun p q => p.1 ≠ q.1) := by
  cases act with
  | set e slot stack =>
    unfold runAction applySet
    dsimp only
    cases getInv w e with
    | none => simp
    | some inv =>
      dsimp only
      split
      · simp
      · simp [entryPush]
  | move a sa b sb n sw =>
    unfold runAction applyMove
    dsimp only
    cases hg : getManyMut w a b with
    | none => simp
    | some p =>
      obtain ⟨src, dst⟩ := p
      have hab : a ≠ b := getManyMut_ne hg
      dsimp only
      split
      · simp
      · cases src.get sa with
        | none => simp
        | some s1 =>
          dsimp only
          split
          · simp
          · cases dst.get sb with
            | none =>
              dsimp only
              rw [entryPush_pair hab]
              simp [hab]
            | some s2 =>
              dsimp only
              split
              · split
                · simp
                · rw [entryPush_pair hab]
                  simp [hab]
              · split
                · rw [entryPush_pair hab]
                  simp [hab]
                · simp

theorem emitChanges_pairwise {m : ChangeMap}
    (h : m.Pairwise (fun p q => p.1 ≠ q.1)) :
    (emitChanges m).Pairwise (fun c d => c.inv ≠ d.inv) := by
  unfold emitChanges
  rw [List.pairwise_map]
  exact List.Pairwise.filter _ h

theorem applyRequest_changes (w : World) (req : InventoryRequest) :
    (applyRequest w req).2.2 = emitChanges (runAction w req.action).2.1 := by
  rcases hr : runAction w req.action with ⟨w1, m1, r⟩
  unfold applyRequest
  rw [hr]
  cases r <;> rfl

/-- C6 counterexample: two successful `Set` commands touching the same
container in one apply pass emit two separate `InventoryChanged` batches for
that container — `changed_per_inv` is created afresh inside the per-request
loop, so nothing coalesces across commands of a pass. -/
theorem two_notifications_same_container_in_one_pass :
    ((applyPass wE [⟨1, .set 0 0 (some stackW40)⟩,
        ⟨2, .set 0 1 (some stackW30)⟩]).2.2).map (fun c => c.inv) = [0, 0] := rfl

/-- C6 (amended): coalescing happens per command, not per pass: the batches
emitted for a single command have pairwise-distinct container ids, so one
command emits at most one `InventoryChanged` per touched container (a pass
with several commands may emit several batches for one container, as the
counterexample shows). -/
theorem at_most_one_notification_per_container_per_command
    (w : World) (req : InventoryRequest) :
    ((applyRequest w req).2.2).Pairwise (fun c d => c.inv ≠ d.inv) := by
  rw [applyRequest_changes]
  exact emitChanges_pairwise (runAction_keys_distinct w req.action)

end Feldspar
